import Mathlib

/-!
Verification of the xbmcpd protocol gateway against its specification.

This file gives a shallow embedding of the three subsystems the claims
concern, each translated from the Python source:

1. the streaming JSON decoder        (`jsonrpc20_tcp/iterator_json.py`),
2. the JSON-RPC client registry      (`jsonrpc20_tcp/__init__.py`),
3. the MPD front-protocol session    (`mpd.py`),

followed by one theorem per claim (with witnesses / counterexamples).
-/

namespace IteratorJson

/-! ## Streaming JSON decoder (`iterator_json.py`, class `JsonParser`)

The Python parser pulls characters one at a time from an iterator, with a
one-character peek buffer; `_getc` (and only `_getc`) advances the
line/column counters.  A one-character buffer over a deterministic
iterator is observationally the same as reading from the remaining
character list, so the state is the remaining input plus the position.
The `_stack` attribute of `JsonParser.__init__` is initialised to `[]`
and never pushed to anywhere in the source; it is kept here to mirror
that (dead) code path in `next`.  -/

structure PState where
  input : List Char
  line : Nat
  col : Nat
  stack : List Unit
  deriving Repr, DecidableEq

def initP (s : String) : PState := ⟨s.data, 1, 0, []⟩

/-- Model of `JsonParser._peek` (without the buffering, which is unobservable). -/
def peekP (st : PState) : Option Char := st.input.head?

/-- Model of `JsonParser._getc`: consume one character; `none` models the `eof`
sentinel object.  A newline bumps the line and resets the column;
anything else — including a read past the end — increments the column. -/
def getcP (st : PState) : Option Char × PState :=
  match st.input with
  | [] => (none, { st with col := st.col + 1 })
  | c :: rest =>
    if c = '\n' then (some c, { st with input := rest, line := st.line + 1, col := 0 })
    else (some c, { st with input := rest, col := st.col + 1 })

/-- The two exception classes of `iterator_json.py`.  `UnexpectedChar`
stores the offending character (`none` = the `eof` sentinel) and the
tokenizer's line/column at construction time.  `UnexpectedEof` is
declared as `class UnexpectedEof(JsonException): pass` — it has no
fields at all. -/
inductive JsonError where
  | unexpectedChar (c : Option Char) (line col : Nat)
  | unexpectedEof
  deriving Repr, DecidableEq

/-- The position information an error object carries, if any. -/
def JsonError.position : JsonError → Option (Nat × Nat)
  | .unexpectedChar _ l c => some (l, c)
  | .unexpectedEof => none

/-- The offending character an error object carries, if any
(`some none` = the eof sentinel). -/
def JsonError.offending : JsonError → Option (Option Char)
  | .unexpectedChar c _ _ => some c
  | .unexpectedEof => none

/-- Model of `exception_factory`. -/
def exceptionFactory (c : Option Char) (st : PState) : JsonError :=
  match c with
  | none => .unexpectedEof
  | some ch => .unexpectedChar (some ch) st.line st.col

/-- Decoded JSON values.  Python numbers (int / float mixtures produced
by `_parse_number`) are modelled exactly as rationals; dictionaries as
association lists with replace-on-insert. -/
inductive JValue where
  | jnull
  | jbool (b : Bool)
  | jnum (q : ℚ)
  | jstr (s : String)
  | jarr (xs : List JValue)
  | jobj (fields : List (String × JValue))
  deriving Repr

/-- Outcome of running a parsing method: a value plus the new state, a
`StopIteration` escaping (the clean end of the value sequence), a raised
`JsonException`, or a non-Json Python exception (e.g. the `TypeError`
from `int(eof, 16)` in the `\u` escape loop).  `outOfFuel` is an
artefact of the fuel-based embedding and is never produced when the fuel
exceeds the input length (all concrete evaluations below yield a real
outcome). -/
inductive PResult (α : Type) where
  | ok (a : α) (st : PState)
  | stopIter
  | raised (e : JsonError)
  | pythonError
  | outOfFuel
  deriving Repr

/-- Model of `unicode.isspace` restricted to the ASCII whitespace the protocol
uses (the non-ASCII Unicode space characters never reach the backend
stream and are irrelevant to every claim). -/
def isSpaceP (c : Char) : Bool :=
  c = ' ' ∨ c = '\t' ∨ c = '\n' ∨ c = '\r' ∨ c = '\x0b' ∨ c = '\x0c'

/-- Model of `unicode.isdigit` restricted to ASCII digits. -/
def isDigitP (c : Char) : Bool := '0' ≤ c ∧ c ≤ '9'

/-- Model of `_isdigit`: `c != eof and c.isdigit()`. -/
def isDigitOpt (c : Option Char) : Bool :=
  match c with
  | none => false
  | some ch => isDigitP ch

def eatWsFuel : Nat → PState → PState
  | 0, st => st
  | fuel+1, st =>
    match peekP st with
    | some c => if isSpaceP c then eatWsFuel fuel (getcP st).2 else st
    | none => st

/-- Model of `_eat_whitespace`; each iteration consumes one character, so
`input.length + 1` fuel makes the fuelled loop exact. -/
def eatWs (st : PState) : PState := eatWsFuel (st.input.length + 1) st

/-- Model of `_check_char`: consume one character and compare; on mismatch raise
`UnexpectedChar(c, self)` with the position after the consume. -/
def checkChar (expected : Char) (st : PState) : PResult Unit :=
  let (c, st1) := getcP st
  if c = some expected then .ok () st1
  else .raised (.unexpectedChar c st1.line st1.col)

/-- Model of `_check_string`. -/
def checkString : List Char → PState → PResult Unit
  | [], st => .ok () st
  | c :: rest, st =>
    match checkChar c st with
    | .ok _ st1 => checkString rest st1
    | .raised e => .raised e
    | .stopIter => .stopIter
    | .pythonError => .pythonError
    | .outOfFuel => .outOfFuel

def hexVal? (c : Char) : Option Nat :=
  if '0' ≤ c ∧ c ≤ '9' then some (c.toNat - '0'.toNat)
  else if 'a' ≤ c ∧ c ≤ 'f' then some (c.toNat - 'a'.toNat + 10)
  else if 'A' ≤ c ∧ c ≤ 'F' then some (c.toNat - 'A'.toNat + 10)
  else none

/-- The `\uXXXX` loop of `_parse_char`: four `int(c, 16)` conversions.
A non-hex character raises `ValueError`, caught and re-raised as
`UnexpectedChar(c, self)`; reading the `eof` sentinel makes `int(eof,
16)` raise `TypeError`, which the `except ValueError` does not catch.
`Char.ofNat` models `unichr` (they differ only on surrogate code points,
which no claim touches). -/
def parseU4 : Nat → Nat → PState → PResult (Option Char)
  | acc, 0, st => .ok (some (Char.ofNat acc)) st
  | acc, k+1, st =>
    let (c, st1) := getcP st
    match c with
    | none => .pythonError
    | some ch =>
      match hexVal? ch with
      | some v => parseU4 (acc * 16 + v) k st1
      | none => .raised (.unexpectedChar (some ch) st1.line st1.col)

/-- Model of `_parse_char`: `none` result means the closing quote was read. -/
def parseCharP (st : PState) : PResult (Option Char) :=
  let (c, st1) := getcP st
  match c with
  | some '"' => .ok none st1
  | some '\\' =>
    let (c2, st2) := getcP st1
    match c2 with
    | some '"' => .ok (some '"') st2
    | some '\\' => .ok (some '\\') st2
    | some '/' => .ok (some '/') st2
    | some 'b' => .ok (some '\x08') st2
    | some 'f' => .ok (some '\x0c') st2
    | some 'n' => .ok (some '\n') st2
    | some 'r' => .ok (some '\r') st2
    | some 't' => .ok (some '\t') st2
    | some 'u' => parseU4 0 4 st2
    | some other => .raised (.unexpectedChar (some other) st2.line st2.col)
    | none => .raised (.unexpectedChar none st2.line st2.col)
  | none => .raised .unexpectedEof
  | some ch => .ok (some ch) st1

def parseStringLoop : Nat → PState → List Char → PResult String
  | 0, _, _ => .outOfFuel
  | fuel+1, st, acc =>
    match parseCharP st with
    | .ok none st1 => .ok (String.mk acc) st1
    | .ok (some c) st1 => parseStringLoop fuel st1 (acc ++ [c])
    | .raised e => .raised e
    | .stopIter => .stopIter
    | .pythonError => .pythonError
    | .outOfFuel => .outOfFuel

/-- Model of `_parse_string`. -/
def parseStringR (st : PState) : PResult String :=
  match checkChar '"' st with
  | .ok _ st1 => parseStringLoop (st1.input.length + 1) st1 []
  | .raised e => .raised e
  | .stopIter => .stopIter
  | .pythonError => .pythonError
  | .outOfFuel => .outOfFuel

def digitValP (c : Char) : Nat := c.toNat - '0'.toNat

/-- Model of `_parse_int`: greedy digit run (each `_parse_digit` is guarded by
`_isdigit`, so its `ValueError` branch is unreachable). -/
def parseIntLoop : Nat → PState → Nat → (Nat × PState)
  | 0, st, n => (n, st)
  | fuel+1, st, n =>
    match peekP st with
    | some c =>
      if isDigitP c then parseIntLoop fuel (getcP st).2 (n * 10 + digitValP c)
      else (n, st)
    | none => (n, st)

def parseIntR (st : PState) : Nat × PState := parseIntLoop (st.input.length + 1) st 0

/-- The digit loop of `_parse_fractional` (the multiplier is divided by
10 before being used, exactly as in the source). -/
def parseFracLoop : Nat → PState → ℚ → ℚ → (ℚ × PState)
  | 0, st, n, _ => (n, st)
  | fuel+1, st, n, mult =>
    match peekP st with
    | some c =>
      if isDigitP c then
        let m := mult / 10
        parseFracLoop fuel (getcP st).2 (n + (digitValP c : ℚ) * m) m
      else (n, st)
    | none => (n, st)

/-- Model of `_parse_fractional`. -/
def parseFracR (st : PState) : PResult ℚ :=
  match peekP st with
  | c =>
    if isDigitOpt c then
      let (q, st1) := parseFracLoop (st.input.length + 1) st 0 1
      .ok q st1
    else .raised (exceptionFactory c st)

/-- Model of `_parse_number`.  The sign is applied before the exponent, as in the
source; `number *= 10 ** exponent` is exact on rationals. -/
def parseNumber (st : PState) : PResult JValue :=
  let negative := peekP st = some '-'
  let st := if negative then (getcP st).2 else st
  let c := peekP st
  if ¬ isDigitOpt c then .raised (exceptionFactory c st)
  else
    let (n, st) :=
      if c = some '0' then ((0 : Nat), (getcP st).2)
      else parseIntR st
    let afterInt : PResult ℚ :=
      if peekP st = some '.' then
        let st1 := (getcP st).2
        match parseFracR st1 with
        | .ok f st2 => .ok ((n : ℚ) + f) st2
        | .raised e => .raised e
        | .stopIter => .stopIter
        | .pythonError => .pythonError
        | .outOfFuel => .outOfFuel
      else .ok (n : ℚ) st
    match afterInt with
    | .ok q st =>
      let q := if negative then -q else q
      if peekP st = some 'e' ∨ peekP st = some 'E' then
        let st := (getcP st).2
        let c1 := peekP st
        let (expNegative, st) :=
          if c1 = some '+' then (false, (getcP st).2)
          else if c1 = some '-' then (true, (getcP st).2)
          else (false, st)
        let c2 := peekP st
        if ¬ isDigitOpt c2 then .raised (exceptionFactory c2 st)
        else
          let (e, st) := parseIntR st
          let exponent : ℤ := if expNegative then -(e : ℤ) else (e : ℤ)
          .ok (.jnum (q * (10 : ℚ) ^ exponent)) st
      else .ok (.jnum q) st
    | .raised e => .raised e
    | .stopIter => .stopIter
    | .pythonError => .pythonError
    | .outOfFuel => .outOfFuel

/-- Dictionary assignment `ret[key] = value`. -/
def insertObj : List (String × JValue) → String → JValue → List (String × JValue)
  | [], k, v => [(k, v)]
  | (k', v') :: rest, k, v =>
    if k' = k then (k, v) :: rest else (k', v') :: insertObj rest k v

mutual

/-- Model of `JsonParser.next`: the entry point producing one top-level value.
At end of input it raises `StopIteration` when `self._stack` is empty —
which it always is, since nothing in the source ever pushes to it — and
would raise `UnexpectedEof` otherwise. -/
def parseNext : Nat → PState → PResult JValue
  | 0, _ => .outOfFuel
  | fuel+1, st =>
    let st := eatWs st
    match peekP st with
    | none => if st.stack.isEmpty then .stopIter else .raised .unexpectedEof
    | some c =>
      if c = '[' then parseArray fuel st
      else if c = '{' then parseObject fuel st
      else if c = '"' then
        match parseStringR st with
        | .ok s st1 => .ok (.jstr s) st1
        | .raised e => .raised e
        | .stopIter => .stopIter
        | .pythonError => .pythonError
        | .outOfFuel => .outOfFuel
      else if c = 't' then
        match checkString ['t','r','u','e'] st with
        | .ok _ st1 => .ok (.jbool true) st1
        | .raised e => .raised e
        | .stopIter => .stopIter
        | .pythonError => .pythonError
        | .outOfFuel => .outOfFuel
      else if c = 'f' then
        match checkString ['f','a','l','s','e'] st with
        | .ok _ st1 => .ok (.jbool false) st1
        | .raised e => .raised e
        | .stopIter => .stopIter
        | .pythonError => .pythonError
        | .outOfFuel => .outOfFuel
      else if c = 'n' then
        match checkString ['n','u','l','l'] st with
        | .ok _ st1 => .ok JValue.jnull st1
        | .raised e => .raised e
        | .stopIter => .stopIter
        | .pythonError => .pythonError
        | .outOfFuel => .outOfFuel
      else if c = '-' ∨ isDigitP c then parseNumber st
      else .raised (.unexpectedChar (some c) st.line st.col)

/-- Model of `_parse_array`. -/
def parseArray : Nat → PState → PResult JValue
  | 0, _ => .outOfFuel
  | fuel+1, st =>
    match checkChar '[' st with
    | .ok _ st1 =>
      let st2 := eatWs st1
      if peekP st2 = some ']' then .ok (.jarr []) (getcP st2).2
      else parseArrayLoop fuel st2 []
    | .raised e => .raised e
    | .stopIter => .stopIter
    | .pythonError => .pythonError
    | .outOfFuel => .outOfFuel

/-- The element loop of `_parse_array`.  A `StopIteration` raised by the
inner `next()` (end of input, empty `_stack`) propagates out, silently
ending the whole value sequence. -/
def parseArrayLoop : Nat → PState → List JValue → PResult JValue
  | 0, _, _ => .outOfFuel
  | fuel+1, st, acc =>
    let st := eatWs st
    match parseNext fuel st with
    | .ok v st1 =>
      let st2 := eatWs st1
      if peekP st2 = some ',' then
        match checkChar ',' st2 with
        | .ok _ st3 => parseArrayLoop fuel st3 (acc ++ [v])
        | .raised e => .raised e
        | .stopIter => .stopIter
        | .pythonError => .pythonError
        | .outOfFuel => .outOfFuel
      else
        match checkChar ']' st2 with
        | .ok _ st3 => .ok (.jarr (acc ++ [v])) st3
        | .raised e => .raised e
        | .stopIter => .stopIter
        | .pythonError => .pythonError
        | .outOfFuel => .outOfFuel
    | .stopIter => .stopIter
    | .raised e => .raised e
    | .pythonError => .pythonError
    | .outOfFuel => .outOfFuel

/-- Model of `_parse_object`. -/
def parseObject : Nat → PState → PResult JValue
  | 0, _ => .outOfFuel
  | fuel+1, st =>
    match checkChar '{' st with
    | .ok _ st1 =>
      let st2 := eatWs st1
      if peekP st2 = some '}' then .ok (.jobj []) (getcP st2).2
      else parseObjectLoop fuel st2 []
    | .raised e => .raised e
    | .stopIter => .stopIter
    | .pythonError => .pythonError
    | .outOfFuel => .outOfFuel

/-- The member loop of `_parse_object`; the key is read by
`_parse_string`, whose quote check on a missing key raises
`UnexpectedChar` (with the eof sentinel if the input ended). -/
def parseObjectLoop : Nat → PState → List (String × JValue) → PResult JValue
  | 0, _, _ => .outOfFuel
  | fuel+1, st, acc =>
    let st := eatWs st
    match parseStringR st with
    | .ok key st1 =>
      let st2 := eatWs st1
      match checkChar ':' st2 with
      | .ok _ st3 =>
        let st4 := eatWs st3
        match parseNext fuel st4 with
        | .ok v st5 =>
          let acc := insertObj acc key v
          let st6 := eatWs st5
          if peekP st6 = some ',' then
            match checkChar ',' st6 with
            | .ok _ st7 => parseObjectLoop fuel st7 acc
            | .raised e => .raised e
            | .stopIter => .stopIter
            | .pythonError => .pythonError
            | .outOfFuel => .outOfFuel
          else
            match checkChar '}' st6 with
            | .ok _ st7 => .ok (.jobj acc) st7
            | .raised e => .raised e
            | .stopIter => .stopIter
            | .pythonError => .pythonError
            | .outOfFuel => .outOfFuel
        | .stopIter => .stopIter
        | .raised e => .raised e
        | .pythonError => .pythonError
        | .outOfFuel => .outOfFuel
      | .raised e => .raised e
      | .stopIter => .stopIter
      | .pythonError => .pythonError
      | .outOfFuel => .outOfFuel
    | .raised e => .raised e
    | .stopIter => .stopIter
    | .pythonError => .pythonError
    | .outOfFuel => .outOfFuel

end

/-- One call of `next()` on a fresh parser over the given character
stream (fuel is generous relative to the input; every recursive call
consumes fuel, at least one unit per consumed character and nesting
level, so `8 * length + 16` never runs out on these inputs). -/
def parseOne (s : String) : PResult JValue :=
  parseNext (8 * s.length + 16) (initP s)

end IteratorJson

namespace JsonRpc

/-! ## JSON-RPC client (`jsonrpc20_tcp/__init__.py`, class `JsonRPC`)

The shared mutable state of the client is the pending-call table
`self._waiting_for_reply` (a dict from correlation id to the `Proxy`
waiting on that id) and the allocation cursor `self._id`.  All accesses
are serialised by `self._lock`, so the interleaved executions are
exactly the sequences of whole operations modelled here.  Proxies are
identified by opaque `Nat` tokens. -/

def ID_MOD : Nat := 4294967296

def lookupD : List (Nat × Nat) → Nat → Option Nat
  | [], _ => none
  | (k, v) :: rest, i => if k = i then some v else lookupD rest i

/-- Dict assignment `d[k] = v`. -/
def insertD : List (Nat × Nat) → Nat → Nat → List (Nat × Nat)
  | [], k, v => [(k, v)]
  | (k', v') :: rest, k, v =>
    if k' = k then (k, v) :: rest else (k', v') :: insertD rest k v

/-- Dict `d.pop(k)`. -/
def eraseD : List (Nat × Nat) → Nat → List (Nat × Nat)
  | [], _ => []
  | (k', v') :: rest, k => if k' = k then rest else (k', v') :: eraseD rest k

structure Registry where
  waiting : List (Nat × Nat)
  nextId : Nat
  deriving Repr, DecidableEq

def initRegistry : Registry := ⟨[], 0⟩

/-- The scan loop of `_acquire_id`:
`while self._id in self._waiting_for_reply: self._id = (self._id + 1) % 2**32`.
The Python loop diverges exactly when it makes `2**32` steps without
finding a free id (the scan is periodic with period `2**32`), so fuel
`ID_MOD` with `none` for exhaustion models it precisely. -/
def acquireLoop : Nat → Nat → List (Nat × Nat) → Option Nat
  | 0, _, _ => none
  | fuel+1, i, w =>
    match lookupD w i with
    | some _ => acquireLoop fuel ((i + 1) % ID_MOD) w
    | none => some i

/-- Model of `JsonRPC._acquire_id`: scan for a free id from the cursor, register
the proxy under it, and leave the cursor at the acquired id. -/
def acquireId (r : Registry) (proxy : Nat) : Option (Nat × Registry) :=
  match acquireLoop ID_MOD r.nextId r.waiting with
  | some i => some (i, ⟨insertD r.waiting i proxy, i⟩)
  | none => none

/-- Model of `JsonRPC._release_id` (the `.pop`; its KeyError path is unreachable
from `Proxy.__call__`, whose `finally` releases the id it acquired). -/
def releaseId (r : Registry) (i : Nat) : Registry :=
  ⟨eraseD r.waiting i, r.nextId⟩

/-- An inbound decoded message, as far as `_msg_received` inspects it. -/
structure Msg where
  method : Option String := none
  id : Option Nat := none
  deriving Repr, DecidableEq

def replyMsg (i : Nat) : Msg := { id := some i }

/-- What `_msg_received` does with one message: dispatch a notification,
wake the proxy registered under the reply's id (`proxy._reply_received`),
silently drop a reply with no registered id (`except KeyError: pass`),
or raise on a message with neither field.  The registry itself is never
modified. -/
inductive MsgAction where
  | notify (method : String)
  | deliver (proxy : Nat)
  | dropped
  | protocolError
  deriving Repr, DecidableEq

/-- Model of `JsonRPC._msg_received`. -/
def msgRoute (r : Registry) (m : Msg) : MsgAction :=
  match m.method with
  | some mth => .notify mth
  | none =>
    match m.id with
    | some i =>
      match lookupD r.waiting i with
      | some p => .deliver p
      | none => .dropped
    | none => .protocolError

/-- How the stream feeding `ReadThread.run` ends: a clean `StopIteration`
from the parser (peer closed the connection) or a decode exception. -/
inductive EndKind where
  | eof
  | decodeError
  deriving Repr, DecidableEq

/-- Model of `ReadThread.run`: `for msg in parser: self._jsonrpc._msg_received(msg)`.
It routes each decoded message in turn; a message with neither `method`
nor `id` raises, killing the thread at that point.  When the stream ends
— cleanly or with a decode error — the method simply returns: there is
no cleanup of the pending-call table and no notification of the waiting
proxies.  Returned: the actions performed and the registry, which is
never modified. -/
def readerRun (r : Registry) : List Msg → EndKind → List MsgAction × Registry
  | [], _ => ([], r)
  | m :: rest, ek =>
    let a := msgRoute r m
    if a = .protocolError then ([a], r)
    else (a :: (readerRun r rest ek).1, (readerRun r rest ek).2)

/-- The distinct failure kinds the specification's error taxonomy gives
a blocked caller; the polling loop of `Proxy.__call__` below can only
ever produce `gotReply`, `timedOut` or `stillWaiting`. -/
inductive CallOutcome where
  | gotReply
  | timedOut
  | connectionClosed
  | stillWaiting
  deriving Repr, DecidableEq

/-- The busy-wait loop of `Proxy.__call__`, abstracted over a schedule:
entry `k` of `steps` is `(gotit, now)` — whether the `k`-th non-blocking
`self._lock.acquire(False)` succeeded (the reader released the lock) and
the clock value `time.time()` read right after it.  `sleep`/`delay`
only shape that schedule and cannot change the outcome.  An exhausted
finite schedule means the loop is still waiting. -/
def pollLoop (endtime : Int) : List (Bool × Int) → CallOutcome
  | [] => .stillWaiting
  | (gotit, now) :: rest =>
    if gotit then .gotReply
    else if endtime - now ≤ 0 then .timedOut
    else pollLoop endtime rest

/-- If the reply never arrives (no `acquire` ever succeeds) and the
clock passes the deadline at some poll, the loop raises the timeout
exception. -/
theorem pollLoop_timeout (endtime : Int) (steps : List (Bool × Int))
    (hng : ∀ s ∈ steps, s.1 = false)
    (hd : ∃ s ∈ steps, endtime - s.2 ≤ 0) :
    pollLoop endtime steps = .timedOut := by
  induction steps with
  | nil => obtain ⟨s, hs, _⟩ := hd; cases hs
  | cons head rest ih =>
    obtain ⟨gotit, now⟩ := head
    have hg : gotit = false := hng (gotit, now) (List.mem_cons_self _ _)
    subst hg
    by_cases hnow : endtime - now ≤ 0
    · simp [pollLoop, hnow]
    · simp only [pollLoop, Bool.false_eq_true, if_false, if_neg hnow]
      apply ih
      · intro s hs; exact hng s (List.mem_cons_of_mem _ hs)
      · obtain ⟨s, hs, hle⟩ := hd
        rcases List.mem_cons.mp hs with h | h
        · exfalso; rw [h] at hle; exact hnow hle
        · exact ⟨s, h, hle⟩

end JsonRpc

namespace Mpd

/-! ## MPD front-protocol session (`mpd.py`, classes `Command`,
`Argument`, `MPDError` and `MPD`)

The per-connection mutable state is the set of attributes set in
`MPD.__init__`.  Output lines (`_send_line`) and backend calls
(`self.xbmc.*`) are collected as lists.  Python exceptions are explicit:
`MPDError` carries the fields its constructor snapshots, and generic
(non-`MPDError`) exceptions such as `TypeError` or `IndexError` are a
separate case, since `_process_command_list` handles the two
differently. -/

/-- Model of `Command.__init__`'s tokenizer regex, first alternative:
`"((?:[^\\]|\\"|\\\\)*?)"` — after an opening quote, the lazy content
closes at the first reachable quote; a non-backslash character is one
unit, `\"` and `\\` are two-character units, and a backslash followed by
anything else (or the end of the line) makes the whole quoted
alternative fail at this start position.  Returns the (still escaped)
group-1 content and the rest of the line after the closing quote. -/
def scanQuoted : List Char → Option (List Char × List Char)
  | [] => none
  | '"' :: rest => some ([], rest)
  | '\\' :: '"' :: rest =>
    (scanQuoted rest).map (fun p => ('\\' :: '"' :: p.1, p.2))
  | '\\' :: '\\' :: rest =>
    (scanQuoted rest).map (fun p => ('\\' :: '\\' :: p.1, p.2))
  | '\\' :: _ => none
  | c :: rest => (scanQuoted rest).map (fun p => (c :: p.1, p.2))

def isBlankC (c : Char) : Bool := c = ' ' ∨ c = '\t'

/-- The second regex alternative `[^ \t]+`: a maximal run of
non-blank characters. -/
def bareRun (l : List Char) : List Char × List Char :=
  (l.takeWhile (fun c => ¬ isBlankC c), l.dropWhile (fun c => ¬ isBlankC c))

/-- Model of `re.findall` over the line: at each position try the quoted
alternative first, then the bare-token alternative, else advance one
character.  Fuelled (each step consumes at least one character, so
`length + 1` is exact). -/
def findTokensFuel : Nat → List Char → List (List Char)
  | 0, _ => []
  | _, [] => []
  | fuel+1, '"' :: rest =>
    match scanQuoted rest with
    | some (content, rest') => content :: findTokensFuel fuel rest'
    | none =>
      let (tok, rest') := bareRun ('"' :: rest)
      tok :: findTokensFuel fuel rest'
  | fuel+1, c :: rest =>
    if isBlankC c then findTokensFuel fuel rest
    else
      let (tok, rest') := bareRun (c :: rest)
      tok :: findTokensFuel fuel rest'

/-- Model of `Argument.__new__`'s unescape: `re.sub(r'\\("|\\)', r'\1', escaped)`. -/
def unescapeArg : List Char → List Char
  | '\\' :: '"' :: rest => '"' :: unescapeArg rest
  | '\\' :: '\\' :: rest => '\\' :: unescapeArg rest
  | c :: rest => c :: unescapeArg rest
  | [] => []

/-- Tokenize one line into unescaped `Argument` strings
(`Command.__init__` before the `split[0]` access). -/
def tokenizeLine (s : String) : List String :=
  (findTokensFuel (s.data.length + 1) s.data).map
    (fun t => String.mk (unescapeArg t))

def toLowerStr (s : String) : String := String.mk (s.data.map Char.toLower)

/-- Model of `data.rstrip('\r')` in `lineReceived`. -/
def dropTrailingCRs (s : String) : String :=
  String.mk ((s.data.reverse.dropWhile (fun c => c = '\r')).reverse)

/-- A parsed `Command`: name (first token, lowercased) and arguments. -/
structure Cmd where
  name : String
  args : List String
  deriving Repr, DecidableEq

/-- The attributes set in `MPD.__init__` (minus the constant
`delimiter`). -/
structure SessionState where
  commandList : List Cmd
  commandListOk : Bool
  commandListStarted : Bool
  commandListPosition : Nat
  currentCommand : String
  playlistId : Nat
  lastPlaylist : Option Unit
  idleMode : Bool
  deriving Repr, DecidableEq

def mpdInit : SessionState :=
  { commandList := []
    commandListOk := false
    commandListStarted := false
    commandListPosition := 0
    currentCommand := ""
    playlistId := 1
    lastPlaylist := none
    idleMode := false }

/-- An `MPDError` instance: its constructor snapshots the session's
`command_list_position` and `current_command` alongside the code and
message. -/
structure MpdError where
  code : Nat
  position : Nat
  command : String
  text : String
  deriving Repr, DecidableEq

def ACK_ERROR_ARG : Nat := 2
def ACK_ERROR_UNKNOWN : Nat := 5
def ACK_ERROR_SYSTEM : Nat := 52

def mkMpdError (st : SessionState) (code : Nat) (text : String) : MpdError :=
  ⟨code, st.commandListPosition, st.currentCommand, text⟩

/-- Model of `MPDError.__unicode__`: `ACK [<code>@<position>] {<command>} <text>`. -/
def ackLine (e : MpdError) : String :=
  "ACK [" ++ Nat.repr e.code ++ "@" ++ Nat.repr e.position ++ "] \x7b" ++
    e.command ++ "\x7d " ++ e.text

/-- Calls made against the XBMC backend object (external collaborator;
only the commands the claims exercise reach it). -/
inductive Effect where
  | setVolume (n : Int)
  deriving Repr, DecidableEq

/-- Model of `MPD.SUPPORTED_COMMANDS`. -/
def SUPPORTED_COMMANDS : List String :=
  ["status", "stats", "pause", "play",
   "next", "previous", "lsinfo", "add", "addid", "find", "search",
   "deleteid", "setvol", "clear", "currentsong",
   "list", "count", "command_list_ok_begin",
   "command_list_end", "commands", "close",
   "notcommands", "outputs", "tagtypes",
   "playid", "stop", "seek", "playlistinfo", "playlistid",
   "plchanges", "plchangesposid", "idle",
   "listall", "listallinfo"]

/-- Outcome of one handler call (`getattr(self, name)(command)`):
normal return with the updated state, emitted lines and backend calls;
a raised `MPDError`; a raised generic Python exception; or a handler
outside the subset this embedding models (never reached by any claim's
input). -/
inductive HandlerResult where
  | ok (st : SessionState) (out : List String) (effs : List Effect)
  | raisedMPD (e : MpdError)
  | raisedPy
  | notModelled
  deriving Repr, DecidableEq

def trimBlanks (l : List Char) : List Char :=
  ((l.dropWhile (fun c => isSpaceC c)).reverse.dropWhile
    (fun c => isSpaceC c)).reverse
  where isSpaceC (c : Char) : Bool :=
    c = ' ' ∨ c = '\t' ∨ c = '\n' ∨ c = '\r' ∨ c = '\x0b' ∨ c = '\x0c'

def digitsVal? (l : List Char) : Option Nat :=
  if l = [] then none
  else l.foldl (fun acc c =>
    match acc with
    | none => none
    | some n =>
      if '0' ≤ c ∧ c ≤ '9' then some (n * 10 + (c.toNat - '0'.toNat))
      else none) (some 0)

/-- Python `int(<unicode>)`: optional surrounding whitespace, optional
sign, a non-empty digit run; anything else raises `ValueError`. -/
def pyInt? (s : String) : Option Int :=
  match trimBlanks s.data with
  | '-' :: ds => (digitsVal? ds).map (fun n => -(n : Int))
  | '+' :: ds => (digitsVal? ds).map (fun n => (n : Int))
  | ds => (digitsVal? ds).map (fun n => (n : Int))

/-- Model of `Command.check_arg_count`: note that Python's `if not max_count`
also treats an explicit `max_count = 0` as "unset". -/
def checkArgCount (st : SessionState) (c : Cmd) (minCount : Nat)
    (maxCount : Option Nat) : Option MpdError :=
  let maxEff := match maxCount with
    | none => minCount
    | some 0 => minCount
    | some m => m
  if c.args.length < minCount ∨ c.args.length > maxEff then
    some (mkMpdError st ACK_ERROR_ARG
      ("wrong number of arguments for \"" ++ st.currentCommand ++ "\""))
  else none

/-- Model of `Argument.as_int`. -/
def asInt (st : SessionState) (a : String) : Except MpdError Int :=
  match pyInt? a with
  | some n => .ok n
  | none => .error (mkMpdError st ACK_ERROR_ARG "need a number")

/-- The command handlers the claims exercise.  `setvol` validates and
calls `self.xbmc.set_volume`.  `idle`, when a command list is being
accumulated, executes `raise MPDError(MPDError.ACK_ERROR_SYSTEM, ...)`
— but `MPDError.__init__(self, mpd, code, text)` takes three arguments,
so this call raises `TypeError`, a generic Python exception, instead of
an `MPDError`.  Other supported commands talk to the backend and are
outside the modelled subset. -/
def execCommand (st : SessionState) (c : Cmd) : HandlerResult :=
  if c.name = "setvol" then
    match checkArgCount st c 1 none with
    | some e => .raisedMPD e
    | none =>
      match c.args with
      | [] => .raisedPy
      | a :: _ =>
        match asInt st a with
        | .error e => .raisedMPD e
        | .ok volume =>
          if volume < 0 ∨ volume > 100 then
            .raisedMPD (mkMpdError st ACK_ERROR_ARG "Invalid volume value")
          else .ok st [] [.setVolume volume]
  else if c.name = "idle" then
    match checkArgCount st c 0 none with
    | some e => .raisedMPD e
    | none =>
      if st.commandListStarted then .raisedPy
      else .ok { st with idleMode := true } [] []
  else .notModelled

/-- The `for i, command in enumerate(self.command_list)` loop of
`_process_command_list`, including its three exception arms and the
trailing `OK` (suppressed in idle mode).  `none` = the run reached an
unmodelled handler. -/
def processFrom (st : SessionState) (i : Nat) :
    List Cmd → Option (SessionState × List String × List Effect)
  | [] => some (st, if st.idleMode then [] else ["OK"], [])
  | c :: rest =>
    let st1 := { st with commandListPosition := i, currentCommand := c.name }
    if c.name ∉ SUPPORTED_COMMANDS then
      let st2 := { st1 with currentCommand := "" }
      some (st2,
        [ackLine (mkMpdError st2 ACK_ERROR_UNKNOWN
          ("unknown command \"" ++ c.name ++ "\""))], [])
    else
      match execCommand st1 c with
      | .ok st2 out effs =>
        let listOk := if st2.commandListOk then ["list_OK"] else []
        match processFrom st2 (i + 1) rest with
        | some (st3, out3, effs3) =>
          some (st3, out ++ listOk ++ out3, effs ++ effs3)
        | none => none
      | .raisedMPD e => some (st1, [ackLine e], [])
      | .raisedPy =>
        some (st1,
          [ackLine (mkMpdError st1 ACK_ERROR_SYSTEM "Internal server error, sorry.")], [])
      | .notModelled => none

/-- Model of `MPD._process_command_list`. -/
def processCommandList (st : SessionState) :
    Option (SessionState × List String × List Effect) :=
  processFrom st 0 st.commandList

/-- Outcome of `MPD.lineReceived` on one line: normal return, or a
Python exception escaping it (there is no try/except in `lineReceived`,
so the `IndexError` from `Command.__init__`'s `split[0]` on a tokenless
line propagates out before any command handling; no line is sent). -/
inductive LineResult where
  | ok (st : SessionState) (out : List String) (effs : List Effect)
  | uncaughtIndexError (st : SessionState)
  | notModelled
  deriving Repr, DecidableEq

/-- Model of `MPD.lineReceived`. -/
def lineReceived (st : SessionState) (data : String) : LineResult :=
  match tokenizeLine (dropTrailingCRs data) with
  | [] => .uncaughtIndexError st
  | first :: rest =>
    let c : Cmd := ⟨toLowerStr first, rest⟩
    if st.idleMode then
      if c.name = "noidle" then
        -- `self._noidle([])`: the changed list at the only call site is
        -- empty, so no `changed:` lines are emitted
        .ok { st with idleMode := false } ["OK"] []
      else .ok st [] []
    else if c.name = "command_list_begin" then
      .ok { st with commandList := [], commandListStarted := true,
                    commandListOk := false } [] []
    else if c.name = "command_list_ok_begin" then
      .ok { st with commandList := [], commandListStarted := true,
                    commandListOk := true } [] []
    else if c.name = "command_list_end" then
      match processCommandList st with
      | some (st1, out, effs) =>
        .ok { st1 with commandListStarted := false, commandListOk := false }
          out effs
      | none => .notModelled
    else if st.commandListStarted then
      .ok { st with commandList := st.commandList ++ [c] } [] []
    else
      match processCommandList { st with commandList := [c] } with
      | some (st1, out, effs) => .ok st1 out effs
      | none => .notModelled

/-- Feed a sequence of lines through the session, accumulating the sent
lines and backend calls; an exception escaping `lineReceived` stops the
run there. -/
inductive RunResult where
  | ok (st : SessionState) (out : List String) (effs : List Effect)
  | uncaughtIndexError (st : SessionState) (out : List String) (effs : List Effect)
  | notModelled
  deriving Repr, DecidableEq

def mpdRun (st : SessionState) : List String → RunResult
  | [] => .ok st [] []
  | l :: ls =>
    match lineReceived st l with
    | .ok st1 out effs =>
      match mpdRun st1 ls with
      | .ok st2 out2 effs2 => .ok st2 (out ++ out2) (effs ++ effs2)
      | .uncaughtIndexError st2 out2 effs2 =>
        .uncaughtIndexError st2 (out ++ out2) (effs ++ effs2)
      | .notModelled => .notModelled
    | .uncaughtIndexError st1 => .uncaughtIndexError st1 [] []
    | .notModelled => .notModelled

/-- Model of `pat` occurs in `s` as a contiguous substring. -/
def startsList : List Char → List Char → Bool
  | [], _ => true
  | _ :: _, [] => false
  | p :: ps, c :: cs => p = c && startsList ps cs

def occursIn (pat : String) (s : String) : Bool :=
  go pat.data s.data
  where go (pat : List Char) : List Char → Bool
    | [] => startsList pat []
    | c :: cs => startsList pat (c :: cs) || go pat cs

end Mpd

/-! ## Claims -/

/-- C1: for the input lines `command_list_begin`, `setvol "50"`, `bogus`,
`command_list_end` from the initial state, the session emits exactly one
line, an ACK error referencing batch position 1 (`[5@1]`) and the
command name `bogus`; no per-command acknowledgement (`list_OK`) is
emitted for `setvol` (the plain begin variant sets `command_list_ok` to
false) and no final `OK` is emitted for the batch (the error arm skips
the `else` clause of `_process_command_list`).  The `setvol` command
itself only produces the backend call `set_volume(50)`. -/
theorem c1_command_list_single_ack :
    Mpd.mpdRun Mpd.mpdInit
      ["command_list_begin", "setvol \"50\"", "bogus", "command_list_end"] =
      .ok ⟨[⟨"setvol", ["50"]⟩, ⟨"bogus", []⟩], false, false, 1, "", 1, none, false⟩
        ["ACK [5@1] \x7b\x7d unknown command \"bogus\""] [.setVolume 50]
    ∧ Mpd.occursIn "ACK" "ACK [5@1] \x7b\x7d unknown command \"bogus\"" = true
    ∧ Mpd.occursIn "@1]" "ACK [5@1] \x7b\x7d unknown command \"bogus\"" = true
    ∧ Mpd.occursIn "bogus" "ACK [5@1] \x7b\x7d unknown command \"bogus\"" = true
    ∧ ("OK" : String) ∉ ["ACK [5@1] \x7b\x7d unknown command \"bogus\""]
    ∧ ("list_OK" : String) ∉ ["ACK [5@1] \x7b\x7d unknown command \"bogus\""] := by
  decide

/-- C2 counterexample: caller 101 acquires id 0, times out and releases
it; caller 202 then acquires the same id 0; when the late reply for the
timed-out request (id 0) finally arrives, `_msg_received` routes it by
id alone and delivers it to caller 202 — the claim's "never delivered to
a later call that was assigned the same correlation id value" is false. -/
theorem c2_counterexample :
    JsonRpc.acquireId ⟨[], 0⟩ 101 = some (0, ⟨[(0, 101)], 0⟩)
    ∧ JsonRpc.releaseId ⟨[(0, 101)], 0⟩ 0 = ⟨[], 0⟩
    ∧ JsonRpc.acquireId ⟨[], 0⟩ 202 = some (0, ⟨[(0, 202)], 0⟩)
    ∧ JsonRpc.msgRoute ⟨[(0, 202)], 0⟩ (JsonRpc.replyMsg 0) = .deliver 202
    ∧ JsonRpc.MsgAction.deliver 202 ≠ .dropped
    ∧ (202 : Nat) ≠ 101 := by
  decide

/-- C2 (amended): a call whose reply never arrives fails with the
timeout error once the deadline passes; a late reply whose id is no
longer registered is dropped; but if a later call has already been
assigned the same reused id value, the late reply is delivered to that
later call (replies are routed purely by id). -/
theorem c2_amended_timeout_and_reuse (endtime : Int)
    (steps : List (Bool × Int))
    (hng : ∀ s ∈ steps, s.1 = false)
    (hd : ∃ s ∈ steps, endtime - s.2 ≤ 0)
    (r : JsonRpc.Registry) (i : Nat) :
    JsonRpc.pollLoop endtime steps = .timedOut
    ∧ (JsonRpc.lookupD r.waiting i = none →
        JsonRpc.msgRoute r (JsonRpc.replyMsg i) = .dropped)
    ∧ (∀ p, JsonRpc.lookupD r.waiting i = some p →
        JsonRpc.msgRoute r (JsonRpc.replyMsg i) = .deliver p) := by
  refine ⟨JsonRpc.pollLoop_timeout _ _ hng hd, ?_, ?_⟩
  · intro h
    simp [JsonRpc.msgRoute, JsonRpc.replyMsg, h]
  · intro p h
    simp [JsonRpc.msgRoute, JsonRpc.replyMsg, h]

/-- Witness for `c2_amended_timeout_and_reuse` at a concrete schedule
and registry. -/
theorem c2_amended_witness :
    JsonRpc.pollLoop 0 [(false, 5)] = .timedOut
    ∧ (JsonRpc.lookupD ([(0, 202)] : List (Nat × Nat)) 3 = none →
        JsonRpc.msgRoute ⟨[(0, 202)], 0⟩ (JsonRpc.replyMsg 3) = .dropped)
    ∧ (∀ p, JsonRpc.lookupD ([(0, 202)] : List (Nat × Nat)) 3 = some p →
        JsonRpc.msgRoute ⟨[(0, 202)], 0⟩ (JsonRpc.replyMsg 3) = .deliver p) :=
  c2_amended_timeout_and_reuse 0 [(false, 5)] (by decide)
    ⟨(false, 5), by decide, by decide⟩ ⟨[(0, 202)], 0⟩ 3

/-- C3 counterexample: with call 101 pending under id 0, the reader
terminates (clean EOF, no messages).  `ReadThread.run` performs no
action at all on termination: the pending entry is still registered and
nobody is woken, so the caller's polling loop runs to its own deadline
and fails with the timeout error — not with a transport-closed error as
the claim requires. -/
theorem c3_counterexample :
    JsonRpc.readerRun ⟨[(0, 101)], 0⟩ [] .eof = ([], ⟨[(0, 101)], 0⟩)
    ∧ JsonRpc.lookupD [(0, 101)] 0 = some 101
    ∧ JsonRpc.pollLoop 10 [(false, 4), (false, 20)] = .timedOut
    ∧ JsonRpc.CallOutcome.timedOut ≠ .connectionClosed := by
  decide

/-- C3 (amended): reader termination (clean EOF or decode failure) never
touches the pending-call table and performs no wake actions of its own;
a call whose reply never arrived therefore stays blocked until its own
poll deadline and fails with the timeout error, not a transport-closed
one. -/
theorem c3_amended_reader_end_wakes_nobody (r : JsonRpc.Registry)
    (msgs : List JsonRpc.Msg) (ek : JsonRpc.EndKind)
    (endtime : Int) (steps : List (Bool × Int))
    (hng : ∀ s ∈ steps, s.1 = false)
    (hd : ∃ s ∈ steps, endtime - s.2 ≤ 0) :
    (JsonRpc.readerRun r msgs ek).2 = r
    ∧ (JsonRpc.readerRun r [] ek).1 = []
    ∧ JsonRpc.pollLoop endtime steps = .timedOut
    ∧ JsonRpc.CallOutcome.timedOut ≠ .connectionClosed := by
  refine ⟨?_, rfl, JsonRpc.pollLoop_timeout _ _ hng hd, by decide⟩
  induction msgs with
  | nil => rfl
  | cons m rest ih =>
    simp only [JsonRpc.readerRun]
    split
    · rfl
    · exact ih

/-- Witness for `c3_amended_reader_end_wakes_nobody` at a concrete
registry, message list and schedule. -/
theorem c3_amended_witness :
    (JsonRpc.readerRun ⟨[(0, 101)], 0⟩ [JsonRpc.replyMsg 9] .decodeError).2 =
      ⟨[(0, 101)], 0⟩
    ∧ (JsonRpc.readerRun ⟨[(0, 101)], 0⟩ [] .decodeError).1 = []
    ∧ JsonRpc.pollLoop 10 [(false, 20)] = .timedOut
    ∧ JsonRpc.CallOutcome.timedOut ≠ .connectionClosed :=
  c3_amended_reader_end_wakes_nobody ⟨[(0, 101)], 0⟩ [JsonRpc.replyMsg 9]
    .decodeError 10 [(false, 20)] (by decide) ⟨(false, 20), by decide, by decide⟩

/-- C4 counterexample: decoding the stream `{` does not raise the
dedicated end-of-stream error.  `_parse_object` reaches `_parse_string`,
whose `_check_char('"')` consumes the eof sentinel and raises
`UnexpectedChar(eof, self)` — the generic unexpected-character error
(carrying the sentinel), not `UnexpectedEof`. -/
theorem c4_counterexample :
    IteratorJson.parseOne "\x7b" = .raised (.unexpectedChar none 1 2)
    ∧ IteratorJson.JsonError.unexpectedChar none 1 2 ≠ .unexpectedEof :=
  ⟨rfl, by decide⟩

/-- C4 (amended): decoding `{` followed by end-of-input yields an
`UnexpectedChar` error carrying the end-of-stream sentinel (raised by
the quote check inside string parsing), not the dedicated
`UnexpectedEof`; decoding `[1,]` yields a syntax error whose offending
character is the `]`. -/
theorem c4_amended_eof_in_object_and_dangling_comma :
    IteratorJson.parseOne "\x7b" = .raised (.unexpectedChar none 1 2)
    ∧ IteratorJson.parseOne "[1,]" = .raised (.unexpectedChar (some ']') 1 3)
    ∧ (IteratorJson.JsonError.unexpectedChar (some ']') 1 3).offending =
        some (some ']') :=
  ⟨rfl, rfl, rfl⟩

/-- C5: evaluation of the decoder at the failing input `[` (and at
`[1,`).  End-of-input inside the unclosed array makes the inner `next()`
raise `StopIteration` — because `self._stack` is initialised empty and
never pushed to, the guard `if not len(self._stack)` in `next` is always
taken and its `UnexpectedEof` branch is unreachable — and that
`StopIteration` propagates out of `_parse_array`, so the output sequence
ends cleanly with no error, contradicting the claim.  (The claim's other
half does hold: at the top level with no value started, `` and ` ` also
end cleanly.) -/
theorem c5_eof_in_unclosed_array_clean_stop :
    IteratorJson.parseOne "[" = .stopIter
    ∧ IteratorJson.parseOne "[1," = .stopIter
    ∧ IteratorJson.parseOne "" = .stopIter
    ∧ IteratorJson.parseOne " " = .stopIter :=
  ⟨rfl, rfl, rfl, rfl⟩

/-- C6 counterexample: the unterminated string `"ab` makes `_parse_char`
raise `UnexpectedEof()`, and that error object carries neither a
position nor an offending-character sentinel — `class
UnexpectedEof(JsonException): pass` has no fields — contradicting the
claim that the end-of-stream error also carries a position. -/
theorem c6_counterexample :
    IteratorJson.parseOne "\"ab" = .raised .unexpectedEof
    ∧ IteratorJson.JsonError.unexpectedEof.position = none
    ∧ IteratorJson.JsonError.unexpectedEof.offending = none :=
  ⟨rfl, rfl, rfl⟩

/-- C6 (amended): every `UnexpectedChar` error carries the offending
character (or the eof sentinel) together with the parser's (line,
column); the `UnexpectedEof` error — and only it — carries neither a
position nor a character.  Both kinds are reachable: `"ab` raises the
field-less `UnexpectedEof`, while `[1,]` raises `UnexpectedChar` with
character and position. -/
theorem c6_amended_error_payloads :
    (∀ e : IteratorJson.JsonError, e.position = none ↔ e = .unexpectedEof)
    ∧ (∀ e : IteratorJson.JsonError, e.offending = none ↔ e = .unexpectedEof)
    ∧ IteratorJson.parseOne "\"ab" = .raised .unexpectedEof
    ∧ IteratorJson.parseOne "[1,]" = .raised (.unexpectedChar (some ']') 1 3) := by
  refine ⟨?_, ?_, rfl, rfl⟩ <;>
    · intro e
      cases e <;> simp [IteratorJson.JsonError.position, IteratorJson.JsonError.offending]

/-- Helper for C7: if some position on the wrap-around scan starting at
`i` is free, the `_acquire_id` scan loop terminates within its fuel and
the id it stops at is not registered in the table. -/
theorem acquireLoop_finds (w : List (Nat × Nat)) :
    ∀ (k fuel i : Nat), k < fuel → i < JsonRpc.ID_MOD →
      JsonRpc.lookupD w ((i + k) % JsonRpc.ID_MOD) = none →
      ∃ n, JsonRpc.acquireLoop fuel i w = some n ∧ JsonRpc.lookupD w n = none := by
  intro k
  induction k with
  | zero =>
    intro fuel i hk hi hfree
    match fuel, hk with
    | f+1, _ =>
      rw [Nat.add_zero, Nat.mod_eq_of_lt hi] at hfree
      exact ⟨i, by simp [JsonRpc.acquireLoop, hfree], hfree⟩
  | succ k ih =>
    intro fuel i hk hi hfree
    match fuel, hk with
    | f+1, hk =>
      cases hcase : JsonRpc.lookupD w i with
      | none => exact ⟨i, by simp [JsonRpc.acquireLoop, hcase], hcase⟩
      | some p =>
        have hlt : k < f := by omega
        have hi1 : (i + 1) % JsonRpc.ID_MOD < JsonRpc.ID_MOD :=
          Nat.mod_lt _ (by decide)
        have heq : ((i + 1) % JsonRpc.ID_MOD + k) % JsonRpc.ID_MOD =
            (i + (k + 1)) % JsonRpc.ID_MOD := by
          rw [Nat.mod_add_mod]
          congr 1
          omega
        obtain ⟨n, hn, hnf⟩ := ih f ((i + 1) % JsonRpc.ID_MOD) hlt hi1
          (by rw [heq]; exact hfree)
        exact ⟨n, by simp [JsonRpc.acquireLoop, hcase, hn], hnf⟩

/-- C7: correlation-id allocation never returns an id that is currently
in flight.  For any pending-call table and any cursor below the
wrap-around modulus, as long as some id value below the modulus is free
(always true while fewer than `2^32` calls are outstanding), the scan of
`_acquire_id` succeeds and the id it registers and returns is not in the
table at allocation time. -/
theorem c7_acquire_id_fresh (w : List (Nat × Nat)) (proxy i : Nat)
    (hi : i < JsonRpc.ID_MOD)
    (hfree : ∃ j, j < JsonRpc.ID_MOD ∧ JsonRpc.lookupD w j = none) :
    ∃ n r', JsonRpc.acquireId ⟨w, i⟩ proxy = some (n, r')
      ∧ JsonRpc.lookupD w n = none := by
  obtain ⟨j, hj, hjf⟩ := hfree
  have hk : (j + JsonRpc.ID_MOD - i) % JsonRpc.ID_MOD < JsonRpc.ID_MOD :=
    Nat.mod_lt _ (by decide)
  have h2 : (i + (j + JsonRpc.ID_MOD - i) % JsonRpc.ID_MOD) % JsonRpc.ID_MOD = j := by
    rw [Nat.add_comm i, Nat.mod_add_mod, Nat.add_comm _ i]
    have h3 : i + (j + JsonRpc.ID_MOD - i) = j + JsonRpc.ID_MOD := by omega
    rw [h3, Nat.add_mod_right, Nat.mod_eq_of_lt hj]
  obtain ⟨n, hn, hnf⟩ := acquireLoop_finds w _ JsonRpc.ID_MOD i hk hi
    (by rw [h2]; exact hjf)
  exact ⟨n, ⟨JsonRpc.insertD w n proxy, n⟩, by simp [JsonRpc.acquireId, hn], hnf⟩

/-- Witness for `c7_acquire_id_fresh`: with id 0 in flight and the
cursor at 0, allocation skips to a free id. -/
theorem c7_witness :
    ∃ n r', JsonRpc.acquireId ⟨[(0, 55)], 0⟩ 7 = some (n, r')
      ∧ JsonRpc.lookupD [(0, 55)] n = none :=
  c7_acquire_id_fresh [(0, 55)] 7 0 (by decide) ⟨1, by decide, by decide⟩

/-- C8 counterexample: from the initial state, `idle` followed by
`noidle` yields exactly the line `OK` — no `changed: playlist` line is
ever emitted, whatever external change was signaled in between, because
the session records no signaled subsystems anywhere and `lineReceived`'s
only call to `_noidle` passes the empty list. -/
theorem c8_counterexample :
    Mpd.mpdRun Mpd.mpdInit ["idle", "noidle"] =
      .ok ⟨[⟨"idle", []⟩], false, false, 0, "idle", 1, none, false⟩ ["OK"] []
    ∧ Mpd.occursIn "changed: playlist" "OK" = false
    ∧ ("changed: playlist" : String) ∉ ["OK"] := by
  decide

/-- C8 (amended): while in idle mode, receiving a `noidle` line emits no
`changed:` lines at all — the session never accumulates signaled
subsystem changes and its only `_noidle` call site passes an empty
changed list — followed by `OK`, and returns the session to the normal
(non-idle) state, leaving everything else unchanged. -/
theorem c8_amended_noidle_emits_only_ok (st : Mpd.SessionState)
    (h : st.idleMode = true) :
    Mpd.lineReceived st "noidle" =
      .ok { st with idleMode := false } ["OK"] [] := by
  have htok : Mpd.tokenizeLine (Mpd.dropTrailingCRs "noidle") = ["noidle"] := by
    decide
  have hlow : Mpd.toLowerStr "noidle" = "noidle" := by decide
  simp [Mpd.lineReceived, htok, hlow, h]

/-- Witness for `c8_amended_noidle_emits_only_ok` at a concrete idle
state. -/
theorem c8_amended_witness :
    Mpd.lineReceived ⟨[], false, false, 0, "", 1, none, true⟩ "noidle" =
      .ok ⟨[], false, false, 0, "", 1, none, false⟩ ["OK"] [] :=
  c8_amended_noidle_emits_only_ok ⟨[], false, false, 0, "", 1, none, true⟩ rfl

/-- C9: executing `idle` inside a command list responds with an ACK
error line and does not enter idle mode.  (Mechanism: the handler's
`raise MPDError(MPDError.ACK_ERROR_SYSTEM, ...)` passes two arguments to
the three-argument `MPDError.__init__`, raising `TypeError`; the generic
`except Exception` arm of `_process_command_list` then sends `ACK [52@0]
{idle} Internal server error, sorry.` — an ACK error line — and the
`self.idle_mode = True` assignment is never reached.) -/
theorem c9_idle_in_command_list_ack :
    Mpd.mpdRun Mpd.mpdInit ["command_list_begin", "idle", "command_list_end"] =
      .ok ⟨[⟨"idle", []⟩], false, false, 0, "idle", 1, none, false⟩
        ["ACK [52@0] \x7bidle\x7d Internal server error, sorry."] []
    ∧ Mpd.occursIn "ACK" "ACK [52@0] \x7bidle\x7d Internal server error, sorry." = true
    ∧ (⟨[⟨"idle", []⟩], false, false, 0, "idle", 1, none, false⟩ :
        Mpd.SessionState).idleMode = false := by
  decide

/-- C10: a line with no tokens (empty, or only spaces/tabs) tokenizes to
the empty list, so `Command.__init__`'s unconditional `split[0]` raises
`IndexError` — at the top of `lineReceived`, before any command
dispatch or error handling, in every session state — and no line (in
particular no ACK error) is sent: the exception escapes `lineReceived`. -/
theorem c10_blank_line_index_error (st : Mpd.SessionState) :
    Mpd.tokenizeLine "" = []
    ∧ Mpd.tokenizeLine " \t " = []
    ∧ Mpd.lineReceived st "" = .uncaughtIndexError st
    ∧ Mpd.lineReceived st " \t " = .uncaughtIndexError st
    ∧ Mpd.mpdRun Mpd.mpdInit [""] = .uncaughtIndexError Mpd.mpdInit [] [] :=
  ⟨rfl, rfl, rfl, rfl, rfl⟩
